import Mathlib

/-!
Verification of the chock-a-block acquisition bot (`src/chock_a_block/start.py`).

The core of the program is the `keep_buying` coroutine (start.py lines
206-278): a loop that, once per second, reads the latest quote published by
`quote_listener`, initialises or adapts a price ceiling (`target`), and places
time-bounded limit buy orders until `shares_bought` reaches `shares_to_buy`.

Embedding choices:
* Prices, the ceiling and timestamps are modelled as rationals (`ℚ`).  The
  Python source uses floats (`THRESHOLD = 0.95`, `target *= 1.01`); all the
  concrete values exercised here are exactly representable in both, so the
  rational model agrees with the float program on every input used below.
* Quantities are `ℕ` (the venue reports non-negative integer share counts).
* One iteration of the `while shares_bought < shares_to_buy` loop body is the
  pure function `keepBuyingStep`.  Its per-tick inputs — the channel content,
  the clock reading, and the outcome of the (single) order dispatch the tick
  may perform — are gathered in `TickInput`.  The two `time.time()` reads of
  the body (lines 251 and 272) occur in mutually exclusive branches, so a
  single `now` per tick suffices.
* A failed HTTP call inside `api.time_bounded_order` (start.py lines 168-171,
  via `unwrap_response`) raises an exception that nothing in `keep_buying`
  catches; this is modelled by the `TickOutcome.fail` constructor, and the
  loop function `keepBuyingRun` stops there.
* After a non-zero fill the code fetches the instance data (lines 262-269).
  Only `KeyError` is caught there, so a `web.instance` call that raises a
  non-KeyError exception (HTTP error, bad JSON, `ok: false`) also aborts the
  run — before `target *= THRESHOLD` (line 271) and `last = time.time()`
  (line 272) run, though after `shares_bought += filled` (line 261).  The
  poll outcome is therefore an `Except` in `TickInput`, and its failure is a
  second source of `TickOutcome.fail`.
* When the poll succeeds, the code merely logs the report's `flash.info`
  field.  The field `known` of `BuyState` is a ghost observation recording
  the ceiling value such a successful report carries; the code never reads it
  back, and no other field depends on it.
-/

/-- A quote as read from the channel dict: `ask` price and `askSize`
(start.py lines 242-243). -/
structure Quote where
  ask : ℚ
  askSize : ℕ
deriving DecidableEq

/-- One tickertape websocket message; `quote` is its optional quote payload
(start.py lines 47-49). -/
structure WsMessage where
  quote : Option Quote
deriving DecidableEq

/-- The mutable loop state of `keep_buying` (start.py lines 228-234), plus the
ghost field `known` described in the module docstring. -/
structure BuyState where
  sharesToBuy : ℕ
  sharesBought : ℕ
  target : ℚ
  last : ℚ
  known : Option ℚ
deriving DecidableEq

/-- The limit order a tick dispatches: `price=ask`, `qty=bid_size`
(start.py line 259). -/
structure OrderIntent where
  price : ℚ
  qty : ℕ
deriving DecidableEq

/-- The per-tick inputs of one loop iteration: the channel content (`none`
when a key is missing, giving the `KeyError` path of lines 241-245), the
clock, the dispatch outcome (`Except.error` = the placement/cancel HTTP call
raised; `Except.ok f` = the cancel response reported `totalFilled = f`), and
the outcome of the instance poll performed after a non-zero fill
(`Except.error` = `web.instance` raised a non-KeyError exception, which the
`except KeyError` of start.py line 268 does not catch; `Except.ok r` = the
poll returned, with `r` the optional clients-ceiling value its flash info
carries — `none` also covers the caught-KeyError case).  `fill` is consulted
only when the tick dispatches, `report` only after a non-zero fill. -/
structure TickInput where
  quote : Option Quote
  now : ℚ
  fill : Except Unit ℕ
  report : Except Unit (Option ℚ)

/-- Result of one loop iteration: either the loop continues with a new state
(having dispatched the given order, if any), or an uncaught exception — from
the dispatch call, or from the instance poll after a non-zero fill — ends the
run; `fail` carries the state at the moment of the raise and the order the
tick had attempted. -/
inductive TickOutcome where
  | cont : BuyState → Option OrderIntent → TickOutcome
  | fail : BuyState → OrderIntent → TickOutcome
deriving DecidableEq

/-- The state carried by a tick outcome. -/
def TickOutcome.state : TickOutcome → BuyState
  | TickOutcome.cont s _ => s
  | TickOutcome.fail s _ => s

/-- The order the tick attempted to dispatch, if any. -/
def TickOutcome.intentOf : TickOutcome → Option OrderIntent
  | TickOutcome.cont _ i => i
  | TickOutcome.fail _ i => some i

/-- Whether the loop proceeds to the next tick. -/
def TickOutcome.isCont : TickOutcome → Bool
  | TickOutcome.cont _ _ => true
  | TickOutcome.fail _ _ => false

/-- start.py line 15: `THRESHOLD = 0.95`, as an exact rational. -/
def THRESHOLD : ℚ := 95 / 100

/-- start.py line 247: `target = target or ask * THRESHOLD` — Python's `or`
takes the right operand exactly when `target` is falsy, i.e. numerically 0. -/
def initTarget (target ask : ℚ) : ℚ :=
  if target = 0 then ask * THRESHOLD else target

/-- One message-handling step of `quote_listener` (start.py lines 47-49): a
message carrying a quote payload is written to the channel unconditionally;
the boolean records whether a publish (`quote.update`) happened. -/
def quoteListenerStep (chan : Option Quote) (msg : WsMessage) :
    Option Quote × Bool :=
  match msg.quote with
  | some q => (some q, true)
  | none => (chan, false)

/-- The consumer publish rule as the spec words it (spec §4.1): publish "only
if it differs from the currently published quote".  Stated only to be compared
against `quoteListenerStep`, which is what the code does. -/
def quoteListenerStepSpec (chan : Option Quote) (msg : WsMessage) :
    Option Quote × Bool :=
  match msg.quote with
  | some q => if chan = some q then (chan, false) else (some q, true)
  | none => (chan, false)

/-- One iteration of the `keep_buying` loop body (start.py lines 236-272).
Branches, in source order: missing quote key → `continue` (line 244); ceiling
initialisation (line 247); `ask > target` → possible stall raise, `continue`
(lines 249-255); `not ask_size > 0` → `continue` (line 256); otherwise compute
`bid_size` and dispatch (lines 258-272).  A raising dispatch becomes
`TickOutcome.fail`.  On `filled = f`, `shares_bought += f` (line 261); then
for `f ≠ 0` the instance poll runs (lines 262-269): if it raises anything but
KeyError the run aborts there — `target *= THRESHOLD` (line 271) and
`last = time.time()` (line 272) are never reached — and otherwise the ceiling
is lowered and, as after every completed dispatch, the timer is reset. -/
def keepBuyingStep (s : BuyState) (inp : TickInput) : TickOutcome :=
  match inp.quote with
  | none => TickOutcome.cont s none
  | some q =>
    let t := initTarget s.target q.ask
    if q.ask > t then
      if inp.now - s.last > 30 then
        TickOutcome.cont { s with target := t * (101 / 100), last := inp.now } none
      else
        TickOutcome.cont { s with target := t } none
    else if q.askSize = 0 then
      TickOutcome.cont { s with target := t } none
    else
      let bid := min (s.sharesToBuy - s.sharesBought) q.askSize
      match inp.fill with
      | Except.error _ =>
          TickOutcome.fail { s with target := t } { price := q.ask, qty := bid }
      | Except.ok f =>
          if f = 0 then
            TickOutcome.cont
              { s with sharesBought := s.sharesBought + f, target := t,
                       last := inp.now }
              (some { price := q.ask, qty := bid })
          else
            match inp.report with
            | Except.error _ =>
                TickOutcome.fail
                  { s with sharesBought := s.sharesBought + f, target := t }
                  { price := q.ask, qty := bid }
            | Except.ok r =>
                TickOutcome.cont
                  { s with
                    sharesBought := s.sharesBought + f
                    target := t * THRESHOLD
                    last := inp.now
                    known := match r with
                      | some c => some c
                      | none => s.known }
                  (some { price := q.ask, qty := bid })

/-- The `while shares_bought < shares_to_buy` loop (start.py line 236) run
over a list of per-tick inputs; a `fail` outcome (uncaught exception) stops
the run immediately, remaining inputs unconsumed. -/
def keepBuyingRun (s : BuyState) : List TickInput → BuyState
  | [] => s
  | inp :: rest =>
    if s.sharesBought < s.sharesToBuy then
      match keepBuyingStep s inp with
      | TickOutcome.cont s' _ => keepBuyingRun s' rest
      | TickOutcome.fail s' _ => s'
    else s

/-- The venue-honesty assumption for one tick: if this tick dispatches an
order, the reported fill does not exceed the quantity requested, which is
`bid_size = min(shares_to_buy - shares_bought, ask_size)` (start.py
line 258).  Ticks that dispatch nothing are unconstrained. -/
def fillOk (s : BuyState) (inp : TickInput) : Bool :=
  match inp.quote, inp.fill with
  | some q, Except.ok f =>
      let t := initTarget s.target q.ask
      if q.ask > t then true
      else if q.askSize = 0 then true
      else decide (f ≤ min (s.sharesToBuy - s.sharesBought) q.askSize)
  | _, _ => true

/-- `fillOk` at every step actually taken by `keepBuyingRun`. -/
def fillsOk (s : BuyState) : List TickInput → Bool
  | [] => true
  | inp :: rest =>
    if s.sharesBought < s.sharesToBuy then
      fillOk s inp &&
        (match keepBuyingStep s inp with
         | TickOutcome.cont s' _ => fillsOk s' rest
         | TickOutcome.fail _ _ => true)
    else true

/-- The fields of `BuyState` the code actually computes with — everything
except the ghost observation `known`. -/
def coreOf (s : BuyState) : ℕ × ℕ × ℚ × ℚ :=
  (s.sharesToBuy, s.sharesBought, s.target, s.last)

lemma step_state_sharesToBuy (s : BuyState) (inp : TickInput) :
    (keepBuyingStep s inp).state.sharesToBuy = s.sharesToBuy := by
  obtain ⟨qo, now, fl, rp⟩ := inp
  cases qo with
  | none => rfl
  | some q =>
    by_cases h1 : q.ask > initTarget s.target q.ask
    · by_cases h2 : now - s.last > 30 <;>
        simp [keepBuyingStep, h1, h2, TickOutcome.state]
    · by_cases h3 : q.askSize = 0
      · simp [keepBuyingStep, h1, h3, TickOutcome.state]
      · cases fl with
        | error e => simp [keepBuyingStep, h1, h3, TickOutcome.state]
        | ok f =>
          by_cases hf0 : f = 0
          · simp [keepBuyingStep, h1, h3, hf0, TickOutcome.state]
          · cases rp with
            | error e => simp [keepBuyingStep, h1, h3, hf0, TickOutcome.state]
            | ok r => simp [keepBuyingStep, h1, h3, hf0, TickOutcome.state]

/-- Claim C7: on every tick the quantity ordered is
`bid_size = min(shares_to_buy - shares_bought, ask_size)` (start.py line 258),
so under `sharesBought ≤ sharesToBuy` it never exceeds the remaining quantity
nor the quoted `askSize`. -/
theorem c7_bid_size (s : BuyState) (inp : TickInput) (q : Quote) (i : OrderIntent)
    (_hsb : s.sharesBought ≤ s.sharesToBuy)
    (hq : inp.quote = some q)
    (hi : (keepBuyingStep s inp).intentOf = some i) :
    i.qty = min (s.sharesToBuy - s.sharesBought) q.askSize ∧
    i.qty ≤ s.sharesToBuy - s.sharesBought ∧ i.qty ≤ q.askSize := by
  obtain ⟨qo, now, fl, rp⟩ := inp
  simp only [TickInput.quote] at hq
  subst hq
  simp only [keepBuyingStep] at hi
  split at hi
  · split at hi <;> simp [TickOutcome.intentOf] at hi
  · split at hi
    · simp [TickOutcome.intentOf] at hi
    · cases fl with
      | error e =>
        simp only [TickOutcome.intentOf, Option.some.injEq] at hi
        subst hi
        exact ⟨rfl, Nat.min_le_left _ _, Nat.min_le_right _ _⟩
      | ok f =>
        by_cases hf0 : f = 0
        · simp [hf0, TickOutcome.intentOf] at hi
          subst hi
          exact ⟨rfl, Nat.min_le_left _ _, Nat.min_le_right _ _⟩
        · cases rp with
          | error e =>
            simp [hf0, TickOutcome.intentOf] at hi
            subst hi
            exact ⟨rfl, Nat.min_le_left _ _, Nat.min_le_right _ _⟩
          | ok r =>
            simp [hf0, TickOutcome.intentOf] at hi
            subst hi
            exact ⟨rfl, Nat.min_le_left _ _, Nat.min_le_right _ _⟩

/-- Witness for C7 at a concrete tick: state `(100, 0, 950)`, quote
`ask=900, askSize=50` gives an order of exactly `min(100, 50) = 50` shares. -/
theorem c7_bid_size_witness :
    ((keepBuyingStep ⟨100, 0, 950, 0, none⟩
        ⟨some ⟨900, 50⟩, 2, Except.ok 50, Except.ok none⟩).intentOf =
      some ⟨900, 50⟩) ∧
    (50 : ℕ) = min (100 - 0) 50 ∧ (50 : ℕ) ≤ 100 - 0 ∧ (50 : ℕ) ≤ 50 := by
  have hint : (keepBuyingStep ⟨100, 0, 950, 0, none⟩
      ⟨some ⟨900, 50⟩, 2, Except.ok 50, Except.ok none⟩).intentOf =
        some ⟨900, 50⟩ := by
    norm_num [keepBuyingStep, initTarget, THRESHOLD, TickOutcome.intentOf]
  have h := c7_bid_size ⟨100, 0, 950, 0, none⟩
      ⟨some ⟨900, 50⟩, 2, Except.ok 50, Except.ok none⟩ ⟨900, 50⟩ ⟨900, 50⟩
      (by norm_num) rfl hint
  exact ⟨hint, h.1, h.2.1, h.2.2⟩

/-- Claim C8: a tick whose quote has `askSize = 0` dispatches no order and
buys no shares, independently of the price check (start.py line 256). -/
theorem c8_zero_ask_size (s : BuyState) (inp : TickInput) (q : Quote)
    (hq : inp.quote = some q) (hz : q.askSize = 0) :
    (keepBuyingStep s inp).intentOf = none ∧
    (keepBuyingStep s inp).state.sharesBought = s.sharesBought ∧
    (keepBuyingStep s inp).isCont = true := by
  obtain ⟨qo, now, fl, rp⟩ := inp
  simp only [TickInput.quote] at hq
  subst hq
  by_cases h1 : q.ask > initTarget s.target q.ask
  · by_cases h2 : now - s.last > 30 <;>
      simp [keepBuyingStep, h1, h2, TickOutcome.intentOf, TickOutcome.state,
        TickOutcome.isCont]
  · simp [keepBuyingStep, h1, hz, TickOutcome.intentOf, TickOutcome.state,
      TickOutcome.isCont]

/-- Witness for C8 at a concrete tick where the price qualifies
(`ask = 900 ≤ ceiling 950`) but `askSize = 0`: no dispatch, no shares. -/
theorem c8_zero_ask_size_witness :
    (keepBuyingStep ⟨100, 0, 950, 0, none⟩
        ⟨some ⟨900, 0⟩, 2, Except.ok 7, Except.ok none⟩).intentOf = none ∧
    (keepBuyingStep ⟨100, 0, 950, 0, none⟩
        ⟨some ⟨900, 0⟩, 2, Except.ok 7, Except.ok none⟩).state.sharesBought = 0 ∧
    (keepBuyingStep ⟨100, 0, 950, 0, none⟩
        ⟨some ⟨900, 0⟩, 2, Except.ok 7, Except.ok none⟩).isCont = true :=
  c8_zero_ask_size ⟨100, 0, 950, 0, none⟩ ⟨some ⟨900, 0⟩, 2, Except.ok 7, Except.ok none⟩
    ⟨900, 0⟩ rfl rfl

/-- Claim C10: the code's "ceiling unset" sentinel is the number 0
(start.py line 247, Python falsiness), so a quote with `ask = 0` never
initialises the ceiling (`0 * THRESHOLD = 0`), and while the ceiling is unset
such a quote with `askSize > 0` passes the `ask > target` check (`0 > 0` is
false) and dispatches a limit buy at price 0. -/
theorem c10_zero_sentinel (s : BuyState) (inp : TickInput) (n : ℕ)
    (hun : s.target = 0) (hq : inp.quote = some ⟨0, n⟩) (hn : n ≠ 0) :
    (keepBuyingStep s inp).state.target = 0 ∧
    (keepBuyingStep s inp).intentOf =
      some ⟨0, min (s.sharesToBuy - s.sharesBought) n⟩ := by
  obtain ⟨qo, now, fl, rp⟩ := inp
  simp only [TickInput.quote] at hq
  subst hq
  have ht : initTarget s.target (0 : ℚ) = 0 := by
    simp [initTarget, hun]
  simp only [keepBuyingStep, ht]
  rw [if_neg (by simp : ¬((0 : ℚ) > 0))]
  rw [if_neg hn]
  cases fl with
  | error e => exact ⟨rfl, rfl⟩
  | ok f =>
    by_cases hf0 : f = 0
    · simp [hf0, TickOutcome.state, TickOutcome.intentOf]
    · cases rp with
      | error e => simp [hf0, TickOutcome.state, TickOutcome.intentOf]
      | ok r => simp [hf0, TickOutcome.state, TickOutcome.intentOf]

/-- Witness for C10: unset ceiling, quote `ask = 0, askSize = 5`: the ceiling
stays 0 (unset) and a 5-share limit buy at price 0 is dispatched. -/
theorem c10_zero_sentinel_witness :
    (keepBuyingStep ⟨100, 0, 0, 0, none⟩
        ⟨some ⟨0, 5⟩, 1, Except.ok 0, Except.ok none⟩).state.target = 0 ∧
    (keepBuyingStep ⟨100, 0, 0, 0, none⟩
        ⟨some ⟨0, 5⟩, 1, Except.ok 0, Except.ok none⟩).intentOf = some ⟨0, min (100 - 0) 5⟩ :=
  c10_zero_sentinel ⟨100, 0, 0, 0, none⟩ ⟨some ⟨0, 5⟩, 1, Except.ok 0, Except.ok none⟩ 5
    rfl rfl (by norm_num)

/-- Claim C9: with the ceiling unset a usable quote initialises it to
`ask * THRESHOLD` (start.py line 247); a set ceiling is left unchanged by
initialisation; and a buy is permitted — an order dispatched, given stock on
offer — iff `ask ≤ targetCeiling` (start.py line 249). -/
theorem c9_ceiling_init :
    (∀ (s : BuyState) (inp : TickInput) (q : Quote),
        s.target = 0 → inp.quote = some q → 0 < q.ask →
        inp.now - s.last ≤ 30 →
        keepBuyingStep s inp =
          TickOutcome.cont { s with target := q.ask * THRESHOLD } none) ∧
    (∀ target ask : ℚ, target ≠ 0 → initTarget target ask = target) ∧
    (∀ (s : BuyState) (inp : TickInput) (q : Quote),
        inp.quote = some q → q.askSize ≠ 0 →
        ((keepBuyingStep s inp).intentOf ≠ none ↔
          q.ask ≤ initTarget s.target q.ask)) := by
  refine ⟨?_, ?_, ?_⟩
  · intro s inp q h0 hq hpos hquiet
    obtain ⟨qo, now, fl, rp⟩ := inp
    simp only [TickInput.quote] at hq
    subst hq
    have ht : initTarget s.target q.ask = q.ask * THRESHOLD := by
      simp [initTarget, h0]
    have hgt : q.ask > q.ask * THRESHOLD := by
      have : q.ask * THRESHOLD < q.ask * 1 :=
        mul_lt_mul_of_pos_left (by norm_num [THRESHOLD]) hpos
      simpa using this
    simp only [TickInput.now] at hquiet
    simp [keepBuyingStep, ht, hgt, not_lt.mpr hquiet]
  · intro target ask h
    simp [initTarget, h]
  · intro s inp q hq hsz
    obtain ⟨qo, now, fl, rp⟩ := inp
    simp only [TickInput.quote] at hq
    subst hq
    by_cases h1 : q.ask > initTarget s.target q.ask
    · have hn := not_le.mpr h1
      by_cases h2 : now - s.last > 30 <;>
        simp [keepBuyingStep, h1, h2, TickOutcome.intentOf, hn]
    · have hy := not_lt.mp h1
      cases fl with
      | error e => simp [keepBuyingStep, h1, hsz, TickOutcome.intentOf, hy]
      | ok f =>
        by_cases hf0 : f = 0
        · simp [keepBuyingStep, h1, hsz, hf0, TickOutcome.intentOf, hy]
        · cases rp with
          | error e =>
            simp [keepBuyingStep, h1, hsz, hf0, TickOutcome.intentOf, hy]
          | ok r =>
            simp [keepBuyingStep, h1, hsz, hf0, TickOutcome.intentOf, hy]

/-- Witness for C9, scenario A: unset ceiling and first ask 1000 initialise
the ceiling to 950; a set ceiling 950 is untouched by initialisation; the
repeated ask of 1000 against ceiling 950 dispatches no order. -/
theorem c9_ceiling_init_witness :
    keepBuyingStep ⟨100, 0, 0, 0, none⟩ ⟨some ⟨1000, 5⟩, 1, Except.ok 0, Except.ok none⟩ =
      TickOutcome.cont ⟨100, 0, 950, 0, none⟩ none ∧
    initTarget 950 1000 = 950 ∧
    (keepBuyingStep ⟨100, 0, 950, 0, none⟩
        ⟨some ⟨1000, 5⟩, 1, Except.ok 0, Except.ok none⟩).intentOf = none := by
  refine ⟨?_, c9_ceiling_init.2.1 950 1000 (by norm_num), ?_⟩
  · have h := c9_ceiling_init.1 ⟨100, 0, 0, 0, none⟩
        ⟨some ⟨1000, 5⟩, 1, Except.ok 0, Except.ok none⟩ ⟨1000, 5⟩ rfl rfl
        (by norm_num) (by norm_num)
    rw [h]
    norm_num [THRESHOLD]
  · have h := c9_ceiling_init.2.2 ⟨100, 0, 950, 0, none⟩
        ⟨some ⟨1000, 5⟩, 1, Except.ok 0, Except.ok none⟩ ⟨1000, 5⟩ rfl (by norm_num)
    have hno : ¬((1000 : ℚ) ≤ initTarget 950 1000) := by norm_num [initTarget]
    exact not_ne_iff.mp (mt h.mp hno)

/-- Claim C2 (amended): with the ceiling set and `ask > target`, no buy is
permitted; the ceiling is multiplied by 1.01 and the raise time recorded
exactly when STRICTLY MORE than 30 seconds (not 10) have elapsed since the
last adjustment, and the state is unchanged otherwise (start.py
lines 249-255). -/
theorem c2_stall_raise (s : BuyState) (inp : TickInput) (q : Quote)
    (hset : s.target ≠ 0) (hq : inp.quote = some q) (hhi : q.ask > s.target) :
    keepBuyingStep s inp =
      TickOutcome.cont
        (if inp.now - s.last > 30 then
          { s with target := s.target * (101 / 100), last := inp.now }
         else s) none := by
  obtain ⟨qo, now, fl, rp⟩ := inp
  simp only [TickInput.quote] at hq
  subst hq
  have ht : initTarget s.target q.ask = s.target := by simp [initTarget, hset]
  by_cases h2 : now - s.last > 30 <;>
    simp [keepBuyingStep, ht, hhi, h2, TickInput.now]

/-- Witness for C2 (amended): ceiling 950, ask 1000, 31 seconds elapsed — the
ceiling is raised to `950 * 1.01` and the raise time recorded. -/
theorem c2_stall_raise_witness :
    keepBuyingStep ⟨100, 0, 950, 0, none⟩ ⟨some ⟨1000, 5⟩, 31, Except.ok 0, Except.ok none⟩ =
      TickOutcome.cont ⟨100, 0, 950 * (101 / 100), 31, none⟩ none := by
  have h := c2_stall_raise ⟨100, 0, 950, 0, none⟩
      ⟨some ⟨1000, 5⟩, 31, Except.ok 0, Except.ok none⟩ ⟨1000, 5⟩
      (by norm_num) rfl (by norm_num)
  rw [h]
  norm_num

/-- Counterexample to C2 as stated: ceiling 950, ask 1000, exactly 10 seconds
elapsed since the last adjustment — the claim predicts a raise to
`950 * 1.01` with the raise time recorded, but the code leaves both the
ceiling and the timestamp unchanged (its guard is `now - last > 30`). -/
theorem c2_boundary_counterexample :
    (keepBuyingStep ⟨100, 0, 950, 0, none⟩
        ⟨some ⟨1000, 5⟩, 10, Except.ok 0, Except.ok none⟩).state.target = 950 ∧
    (keepBuyingStep ⟨100, 0, 950, 0, none⟩
        ⟨some ⟨1000, 5⟩, 10, Except.ok 0, Except.ok none⟩).state.target ≠ 950 * (101 / 100) ∧
    (keepBuyingStep ⟨100, 0, 950, 0, none⟩
        ⟨some ⟨1000, 5⟩, 10, Except.ok 0, Except.ok none⟩).state.last = 0 := by
  norm_num [keepBuyingStep, initTarget, THRESHOLD, TickOutcome.state]

/-- Claim C4 (amended): a dispatch that completes with `filled = f` adds
exactly `f` to `sharesBought` (start.py line 261); if `f = 0` the ceiling is
unchanged and the timer reset; if `f > 0` the instance poll runs first
(lines 262-269), and only when it returns is the ceiling multiplied by
`THRESHOLD` and the timer reset — if the poll raises a non-KeyError
exception, the run aborts with the ceiling NOT lowered and the timer NOT
reset. -/
theorem c4_on_fill (s : BuyState) (inp : TickInput) (q : Quote) (f : ℕ)
    (hq : inp.quote = some q) (hf : inp.fill = Except.ok f)
    (hset : s.target ≠ 0) (hperm : q.ask ≤ s.target) (hsz : q.askSize ≠ 0) :
    (keepBuyingStep s inp).state.sharesBought = s.sharesBought + f ∧
    (f = 0 →
      (keepBuyingStep s inp).state.target = s.target ∧
      (keepBuyingStep s inp).state.last = inp.now ∧
      (keepBuyingStep s inp).isCont = true) ∧
    (∀ r, f ≠ 0 → inp.report = Except.ok r →
      (keepBuyingStep s inp).state.target = s.target * THRESHOLD ∧
      (keepBuyingStep s inp).state.last = inp.now ∧
      (keepBuyingStep s inp).isCont = true) ∧
    (f ≠ 0 → inp.report = Except.error () →
      (keepBuyingStep s inp).state.target = s.target ∧
      (keepBuyingStep s inp).state.last = s.last ∧
      (keepBuyingStep s inp).isCont = false) := by
  obtain ⟨qo, now, fl, rp⟩ := inp
  simp only [TickInput.quote, TickInput.fill] at hq hf
  subst hq
  subst hf
  have ht : initTarget s.target q.ask = s.target := by simp [initTarget, hset]
  have h1 : ¬ q.ask > s.target := not_lt.mpr hperm
  refine ⟨?_, ?_, ?_, ?_⟩
  · by_cases hf0 : f = 0
    · simp [keepBuyingStep, ht, h1, hsz, hf0, TickOutcome.state]
    · cases rp with
      | error e => simp [keepBuyingStep, ht, h1, hsz, hf0, TickOutcome.state]
      | ok r => simp [keepBuyingStep, ht, h1, hsz, hf0, TickOutcome.state]
  · intro hf0
    simp [keepBuyingStep, ht, h1, hsz, hf0, TickOutcome.state,
      TickOutcome.isCont, TickInput.now]
  · intro r hf0 hr
    simp only [TickInput.report] at hr
    subst hr
    simp [keepBuyingStep, ht, h1, hsz, hf0, TickOutcome.state,
      TickOutcome.isCont, TickInput.now]
  · intro hf0 hr
    simp only [TickInput.report] at hr
    subst hr
    simp [keepBuyingStep, ht, h1, hsz, hf0, TickOutcome.state,
      TickOutcome.isCont]

/-- Witness for C4 (amended), scenario B with a succeeding poll: ceiling 950,
ask 900, askSize 50, fill 50 — `sharesBought` becomes 50, the ceiling lowers
to `950 * 0.95 = 902.5`, the loop continues, and more shares are still needed
(`50 < 100`). -/
theorem c4_on_fill_witness :
    (keepBuyingStep ⟨100, 0, 950, 0, none⟩
        ⟨some ⟨900, 50⟩, 2, Except.ok 50, Except.ok none⟩).state.sharesBought = 50 ∧
    (keepBuyingStep ⟨100, 0, 950, 0, none⟩
        ⟨some ⟨900, 50⟩, 2, Except.ok 50, Except.ok none⟩).state.target = 1805 / 2 ∧
    (keepBuyingStep ⟨100, 0, 950, 0, none⟩
        ⟨some ⟨900, 50⟩, 2, Except.ok 50, Except.ok none⟩).isCont = true ∧
    (50 : ℕ) < 100 := by
  have h := c4_on_fill ⟨100, 0, 950, 0, none⟩
      ⟨some ⟨900, 50⟩, 2, Except.ok 50, Except.ok none⟩ ⟨900, 50⟩ 50 rfl rfl
      (by norm_num) (by norm_num) (by norm_num)
  have h3 := h.2.2.1 none (by norm_num) rfl
  refine ⟨by rw [h.1], ?_, h3.2.2, by norm_num⟩
  rw [h3.1]
  norm_num [THRESHOLD]

/-- Counterexample to C4 as stated: ceiling 950, ask 900, askSize 50, the
dispatch fills 50, but the instance poll raises (start.py lines 263-267 catch
only KeyError) — `sharesBought` is already 50, yet the ceiling stays 950
instead of lowering to `950 * 0.95`, the timer is not reset, and the run
aborts instead of continuing. -/
theorem c4_poll_failure_counterexample :
    (keepBuyingStep ⟨100, 0, 950, 0, none⟩
        ⟨some ⟨900, 50⟩, 2, Except.ok 50, Except.error ()⟩).state.sharesBought = 50 ∧
    (keepBuyingStep ⟨100, 0, 950, 0, none⟩
        ⟨some ⟨900, 50⟩, 2, Except.ok 50, Except.error ()⟩).state.target = 950 ∧
    (keepBuyingStep ⟨100, 0, 950, 0, none⟩
        ⟨some ⟨900, 50⟩, 2, Except.ok 50, Except.error ()⟩).state.target ≠
      950 * THRESHOLD ∧
    (keepBuyingStep ⟨100, 0, 950, 0, none⟩
        ⟨some ⟨900, 50⟩, 2, Except.ok 50, Except.error ()⟩).state.last = 0 ∧
    (keepBuyingStep ⟨100, 0, 950, 0, none⟩
        ⟨some ⟨900, 50⟩, 2, Except.ok 50, Except.error ()⟩).isCont = false := by
  norm_num [keepBuyingStep, initTarget, THRESHOLD, TickOutcome.state,
    TickOutcome.isCont]

/-- Claim C3 (amended): a dispatch whose placement call raises is NOT absorbed
as a zero fill — the exception propagates out of the loop, which aborts at
that tick with `sharesBought` (and all state except the already-performed
ceiling initialisation) unchanged, consuming no further input. -/
theorem c3_dispatch_failure (s : BuyState) (inp : TickInput) (q : Quote)
    (hq : inp.quote = some q) (hf : inp.fill = Except.error ())
    (hperm : q.ask ≤ initTarget s.target q.ask) (hsz : q.askSize ≠ 0) :
    keepBuyingStep s inp =
      TickOutcome.fail { s with target := initTarget s.target q.ask }
        { price := q.ask, qty := min (s.sharesToBuy - s.sharesBought) q.askSize } ∧
    (∀ rest, s.sharesBought < s.sharesToBuy →
      keepBuyingRun s (inp :: rest) =
        { s with target := initTarget s.target q.ask }) := by
  obtain ⟨qo, now, fl, rp⟩ := inp
  simp only [TickInput.quote, TickInput.fill] at hq hf
  subst hq
  subst hf
  have h1 : ¬ q.ask > initTarget s.target q.ask := not_lt.mpr hperm
  have hstep : keepBuyingStep s ⟨some q, now, Except.error (), rp⟩ =
      TickOutcome.fail { s with target := initTarget s.target q.ask }
        { price := q.ask, qty := min (s.sharesToBuy - s.sharesBought) q.askSize } := by
    simp [keepBuyingStep, h1, hsz]
  refine ⟨hstep, ?_⟩
  intro rest hlt
  simp [keepBuyingRun, hlt, hstep]

/-- Witness for C3 (amended) at a concrete tick: ceiling 950, ask 900,
askSize 50, placement raises — the run aborts with 0 shares bought. -/
theorem c3_dispatch_failure_witness :
    keepBuyingStep ⟨100, 0, 950, 0, none⟩ ⟨some ⟨900, 50⟩, 1, Except.error (), Except.ok none⟩ =
      TickOutcome.fail ⟨100, 0, 950, 0, none⟩ ⟨900, 50⟩ ∧
    keepBuyingRun ⟨100, 0, 950, 0, none⟩
        [⟨some ⟨900, 50⟩, 1, Except.error (), Except.ok none⟩,
         ⟨some ⟨900, 50⟩, 2, Except.ok 50, Except.ok none⟩] =
      ⟨100, 0, 950, 0, none⟩ := by
  have h := c3_dispatch_failure ⟨100, 0, 950, 0, none⟩
      ⟨some ⟨900, 50⟩, 1, Except.error (), Except.ok none⟩ ⟨900, 50⟩ rfl rfl
      (by norm_num [initTarget]) (by norm_num)
  constructor
  · rw [h.1]
    norm_num [initTarget]
  · have h2 := h.2 [⟨some ⟨900, 50⟩, 2, Except.ok 50, Except.ok none⟩] (by norm_num)
    rw [h2]
    norm_num [initTarget]

/-- Counterexample to C3 as stated: on a concrete tick whose placement call
raises, the loop does not proceed to the next tick with the dispatch counted
as zero-filled — the outcome is an abort (`isCont = false`), even though an
order for 50 shares had been attempted. -/
theorem c3_counterexample :
    (keepBuyingStep ⟨100, 0, 950, 0, none⟩
        ⟨some ⟨900, 50⟩, 1, Except.error (), Except.ok none⟩).isCont = false ∧
    (keepBuyingStep ⟨100, 0, 950, 0, none⟩
        ⟨some ⟨900, 50⟩, 1, Except.error (), Except.ok none⟩).intentOf = some ⟨900, 50⟩ := by
  norm_num [keepBuyingStep, initTarget, TickOutcome.isCont, TickOutcome.intentOf]

/-- Claim C5 (amended): `quote_listener` publishes every received quote
payload unconditionally — there is no comparison with the channel content;
delivering the same quote again leaves the channel value unchanged
(last-write-wins slot), but it is published anew. -/
theorem c5_publish_unconditional (chan : Option Quote) (msg : WsMessage)
    (q : Quote) (hq : msg.quote = some q) :
    quoteListenerStep chan msg = (some q, true) ∧
    (quoteListenerStep (quoteListenerStep chan msg).1 msg).1 =
      (quoteListenerStep chan msg).1 := by
  obtain ⟨mq⟩ := msg
  simp only [WsMessage.quote] at hq
  subst hq
  simp [quoteListenerStep]

/-- Witness for C5 (amended): republishing the identical quote leaves the
channel holding that same quote. -/
theorem c5_publish_unconditional_witness :
    quoteListenerStep (some ⟨1000, 10⟩) ⟨some ⟨1000, 10⟩⟩ = (some ⟨1000, 10⟩, true) ∧
    (quoteListenerStep
        (quoteListenerStep (some ⟨1000, 10⟩) ⟨some ⟨1000, 10⟩⟩).1
        ⟨some ⟨1000, 10⟩⟩).1 =
      (quoteListenerStep (some ⟨1000, 10⟩) ⟨some ⟨1000, 10⟩⟩).1 :=
  c5_publish_unconditional (some ⟨1000, 10⟩) ⟨some ⟨1000, 10⟩⟩ ⟨1000, 10⟩ rfl

/-- Counterexample to C5 as stated: a message repeating exactly the quote the
channel already holds is still published by the code (left conjunct), whereas
the spec's publish-only-if-different rule would suppress it (right
conjunct). -/
theorem c5_counterexample :
    (quoteListenerStep (some ⟨1000, 10⟩) ⟨some ⟨1000, 10⟩⟩).2 = true ∧
    (quoteListenerStepSpec (some ⟨1000, 10⟩) ⟨some ⟨1000, 10⟩⟩).2 = false := by
  constructor
  · rfl
  · simp [quoteListenerStepSpec]

/-- Claim C6 (amended): the content of the instance report polled after a
fill is never used — every computed field of the resulting state, the
dispatched order and the continue/abort outcome are identical whatever
ceiling value a returning poll carries (the code only logs it), so no
clamping of `targetCeiling` to a clients ceiling ever happens. -/
theorem c6_report_never_used (s : BuyState) (inp : TickInput)
    (r₁ r₂ : Option ℚ) :
    coreOf (keepBuyingStep s { inp with report := Except.ok r₁ }).state =
      coreOf (keepBuyingStep s { inp with report := Except.ok r₂ }).state ∧
    (keepBuyingStep s { inp with report := Except.ok r₁ }).intentOf =
      (keepBuyingStep s { inp with report := Except.ok r₂ }).intentOf ∧
    (keepBuyingStep s { inp with report := Except.ok r₁ }).isCont =
      (keepBuyingStep s { inp with report := Except.ok r₂ }).isCont := by
  obtain ⟨qo, now, fl, rp⟩ := inp
  cases qo with
  | none => exact ⟨rfl, rfl, rfl⟩
  | some q =>
    by_cases h1 : q.ask > initTarget s.target q.ask
    · by_cases h2 : now - s.last > 30 <;>
        simp [keepBuyingStep, h1, h2]
    · by_cases h3 : q.askSize = 0
      · simp [keepBuyingStep, h1, h3]
      · cases fl with
        | error e => simp [keepBuyingStep, h1, h3]
        | ok f =>
          by_cases hf0 : f = 0
          · simp [keepBuyingStep, h1, h3, hf0]
          · simp [keepBuyingStep, h1, h3, hf0, coreOf, TickOutcome.state,
              TickOutcome.intentOf, TickOutcome.isCont]

/-- Counterexample to C6 as stated: a reachable state (one tick from a
legitimate initial state, ceiling set to 950, whose dispatch fills 50 shares
and whose instance poll reports a clients ceiling of 500) in which the target
ceiling 902.5 exceeds the known clients ceiling 500 — the code stores no such
ceiling and never clamps. -/
theorem c6_counterexample :
    (keepBuyingRun ⟨100, 0, 950, 0, none⟩
        [⟨some ⟨900, 50⟩, 1, Except.ok 50, Except.ok (some 500)⟩]).known = some 500 ∧
    ¬((keepBuyingRun ⟨100, 0, 950, 0, none⟩
        [⟨some ⟨900, 50⟩, 1, Except.ok 50, Except.ok (some 500)⟩]).target ≤ 500) := by
  norm_num [keepBuyingRun, keepBuyingStep, initTarget, THRESHOLD]

lemma step_bought_le (s : BuyState) (inp : TickInput)
    (hsb : s.sharesBought ≤ s.sharesToBuy) (hok : fillOk s inp = true) :
    (keepBuyingStep s inp).state.sharesBought ≤ s.sharesToBuy := by
  obtain ⟨qo, now, fl, rp⟩ := inp
  cases qo with
  | none => exact hsb
  | some q =>
    by_cases h1 : q.ask > initTarget s.target q.ask
    · by_cases h2 : now - s.last > 30 <;>
        simpa [keepBuyingStep, h1, h2, TickOutcome.state] using hsb
    · by_cases h3 : q.askSize = 0
      · simpa [keepBuyingStep, h1, h3, TickOutcome.state] using hsb
      · cases fl with
        | error e => simpa [keepBuyingStep, h1, h3, TickOutcome.state] using hsb
        | ok f =>
          have hf : f ≤ min (s.sharesToBuy - s.sharesBought) q.askSize := by
            simpa [fillOk, h1, h3] using hok
          by_cases hf0 : f = 0
          · simp [keepBuyingStep, h1, h3, hf0, TickOutcome.state]
            omega
          · cases rp with
            | error e =>
              simp [keepBuyingStep, h1, h3, hf0, TickOutcome.state]
              omega
            | ok r =>
              simp [keepBuyingStep, h1, h3, hf0, TickOutcome.state]
              omega

/-- Claim C1: from any state with `sharesBought ≤ sharesToBuy` (in particular
the initial state, which has `sharesBought = 0`), as long as every dispatch
reports a fill of at most the quantity it requested, every state the run can
reach satisfies `0 ≤ sharesBought ≤ sharesToBuy`, with `sharesToBuy` fixed
for the whole run. -/
theorem c1_invariant (s : BuyState) (l : List TickInput)
    (hsb : s.sharesBought ≤ s.sharesToBuy) (hok : fillsOk s l = true) :
    0 ≤ (keepBuyingRun s l).sharesBought ∧
    (keepBuyingRun s l).sharesBought ≤ (keepBuyingRun s l).sharesToBuy ∧
    (keepBuyingRun s l).sharesToBuy = s.sharesToBuy := by
  induction l generalizing s with
  | nil => exact ⟨Nat.zero_le _, hsb, rfl⟩
  | cons inp rest ih =>
    by_cases hlt : s.sharesBought < s.sharesToBuy
    · simp only [fillsOk, if_pos hlt] at hok
      simp only [keepBuyingRun, if_pos hlt]
      cases hstep : keepBuyingStep s inp with
      | cont s' oi =>
        rw [hstep] at hok
        simp only [Bool.and_eq_true] at hok
        obtain ⟨hok1, hok2⟩ := hok
        have hstb : s'.sharesToBuy = s.sharesToBuy := by
          have h := step_state_sharesToBuy s inp
          rw [hstep] at h
          exact h
        have hsb' : s'.sharesBought ≤ s'.sharesToBuy := by
          have h := step_bought_le s inp hsb hok1
          rw [hstep] at h
          simp only [TickOutcome.state] at h
          omega
        have hrun := ih s' hsb' hok2
        exact ⟨hrun.1, hrun.2.1, by rw [hrun.2.2, hstb]⟩
      | fail s' i =>
        rw [hstep] at hok
        simp only [Bool.and_eq_true] at hok
        have hstb : s'.sharesToBuy = s.sharesToBuy := by
          have h := step_state_sharesToBuy s inp
          rw [hstep] at h
          exact h
        have hsb' : s'.sharesBought ≤ s.sharesToBuy := by
          have h := step_bought_le s inp hsb hok.1
          rw [hstep] at h
          exact h
        exact ⟨Nat.zero_le _, by rw [hstb]; exact hsb', hstb⟩
    · simp only [keepBuyingRun, if_neg hlt]
      exact ⟨Nat.zero_le _, hsb, by simp⟩

/-- Witness for C1: a one-tick run from the initial state (0 of 100 bought,
an honest fill of 50 of the 50 requested) ends with
`sharesBought = 50 ≤ sharesToBuy = 100`. -/
theorem c1_invariant_witness :
    (0 : ℕ) ≤ 100 ∧
    fillsOk ⟨100, 0, 950, 0, none⟩
      [⟨some ⟨900, 50⟩, 1, Except.ok 50, Except.ok none⟩] = true ∧
    (keepBuyingRun ⟨100, 0, 950, 0, none⟩
        [⟨some ⟨900, 50⟩, 1, Except.ok 50, Except.ok none⟩]).sharesBought ≤
      (keepBuyingRun ⟨100, 0, 950, 0, none⟩
        [⟨some ⟨900, 50⟩, 1, Except.ok 50, Except.ok none⟩]).sharesToBuy := by
  refine ⟨by norm_num, by decide, ?_⟩
  exact (c1_invariant ⟨100, 0, 950, 0, none⟩
      [⟨some ⟨900, 50⟩, 1, Except.ok 50, Except.ok none⟩]
      (by norm_num) (by decide)).2.1
